import Mathlib

/-!
Verification development for the tagged cost-specification and
problem-preparation engine described by the repository's specification.

The repository itself ships only example notebooks exercising the engine
(the external `moscot` library), so every definition below is modelled from
the specification's description of the engine's observable contract:
tags and tagged representations, the callback registry, per-term resolution
with its precedence chain, manual override operations, and the problem
registry with its prepare/solve lifecycle.

Numeric payloads are matrices of rationals (`List (List ℚ)`); the external
numeric routines (PCA projection, graph construction, the standard-deviation
computation inside standardization) are parameters bundled in `Numerics`,
since the specification fixes only their input/output structure.
-/

namespace Moscot

/-- Modelled from the spec: a numeric matrix, stored as a list of rows of
rationals (except for spatial coordinates, which are stored feature-wise as
columns where noted). -/
abbrev Mat := List (List ℚ)

/-- Modelled from the spec (section 3): the tag enumeration describing how a
payload is consumed downstream. -/
inductive Tag where
  | pointCloud
  | costMatrix
  | graph
  | custom
deriving DecidableEq, Repr

/-- Modelled from the spec (section 3): a payload is either a pair of arrays
(point cloud over two partitions) or a single array (cost matrix, graph, or a
single-partition point cloud). -/
inductive Payload where
  | pair (src tgt : Mat)
  | single (m : Mat)
deriving DecidableEq, Repr

/-- Modelled from the spec (section 3): a TaggedRepresentation pairs a payload
with a tag and an optional cost-function identifier. -/
structure TaggedRep where
  payload : Payload
  tag : Tag
  cost_fn : Option String
deriving DecidableEq, Repr

/-- Modelled from the spec (section 7): the error taxonomy of the engine. -/
inductive Err where
  | ShapeMismatch
  | UnknownCost
  | TypeMismatch
  | ConfigConflict
  | LabelMismatch
  | StageError
  | KeyNotFound
deriving DecidableEq, Repr

/-- Modelled from the spec (section 3): the three terms of a pairwise
problem. -/
inductive Term where
  | xy
  | x
  | y
deriving DecidableEq, Repr

/-- Modelled from the spec (section 3): the lifecycle stage of a
ProblemInstance. -/
inductive Stage where
  | INIT
  | PREPARED
  | SOLVED
deriving DecidableEq, Repr

/-- Modelled from the spec (glossary): the shared data store holding every
observation of every distribution: row labels, raw features `X` (one row per
observation), named per-observation arrays (`obsm`), named pairwise
observation-by-observation arrays (`obsp`), and spatial coordinates stored
feature-wise (each entry one coordinate column over all observations). -/
structure DataStore where
  labels : List String
  X : Mat
  obsm : List (String × Mat)
  obsp : List (String × Mat)
  spatialCols : List (List ℚ)
deriving Repr

/-- Modelled from the spec (glossary): one distribution's partition, a
contiguous, read-only row range into the shared data store. -/
structure Partition where
  start : Nat
  len : Nat
deriving DecidableEq, Repr

/-- Rows of a stored matrix belonging to a partition. -/
def sliceRows (m : Mat) (p : Partition) : Mat :=
  (m.drop p.start).take p.len

/-- Row labels of a partition. -/
def Partition.rowLabels (ds : DataStore) (p : Partition) : List String :=
  (ds.labels.drop p.start).take p.len

/-- Raw feature rows of a partition. -/
def Partition.featX (ds : DataStore) (p : Partition) : Mat :=
  sliceRows ds.X p

/-- Spatial coordinates of a partition, feature-wise (one list per
coordinate). -/
def Partition.spatial (ds : DataStore) (p : Partition) : List (List ℚ) :=
  ds.spatialCols.map (fun col => (col.drop p.start).take p.len)

/-- Sub-block of a stored pairwise matrix: rows of partition `p`, columns of
partition `q`. -/
def subBlock (m : Mat) (p q : Partition) : Mat :=
  (sliceRows m p).map (fun row => (row.drop q.start).take q.len)

/-- Decides whether a matrix has exactly `r` rows, each of length `c`. -/
def matIsSize (m : Mat) (r c : Nat) : Bool :=
  m.length == r && m.all (fun row => row.length == c)

/-- Feature width of a matrix, read off its first row. -/
def matWidth (m : Mat) : Nat :=
  (m.headD []).length

/-- Modelled from the spec (section 4.1): the cost-function identifiers the
downstream solver recognizes. -/
def knownCosts : List String :=
  ["sq_euclidean", "euclidean", "geodesic", "custom"]

/-- Decides whether an optional cost-function identifier is recognized. -/
def costOk (c : Option String) : Bool :=
  match c with
  | none => true
  | some s => knownCosts.contains s

/-- Mean of a list of rationals (zero on the empty list). -/
def mean (xs : List ℚ) : ℚ :=
  xs.sum / (xs.length : ℚ)

/-- Population variance of a list of rationals (zero on the empty list). -/
def variance (xs : List ℚ) : ℚ :=
  ((xs.map (fun v => (v - mean xs) ^ 2)).sum) / (xs.length : ℚ)

/-- Modelled from the spec: the external numeric routines the engine
delegates to. The spec fixes only their input/output structure: `pca` is the
joint low-rank projection used by the local-pca callback, `buildGraph` the
nearest-neighbor or similarity graph construction, and `stddev` the
standard-deviation computation used for feature-wise standardization. -/
structure Numerics where
  pca : Mat → Mat
  buildGraph : Mat → Mat
  stddev : List ℚ → ℚ

/-- Modelled from the spec (section 4.2): feature-wise standardization of one
coordinate column to zero mean and unit variance. -/
def standardizeCol (nm : Numerics) (xs : List ℚ) : List ℚ :=
  xs.map (fun v => (v - mean xs) / nm.stddev xs)

/-- Standardization of every coordinate column. -/
def standardizeCols (nm : Numerics) (cols : List (List ℚ)) : List (List ℚ) :=
  cols.map (standardizeCol nm)

/-- Modelled from the spec (section 4.2): the spatial-norm built-in callback
output: the standardized spatial coordinates as a point cloud. -/
def spatialNormRep (nm : Numerics) (ds : DataStore) (p : Partition) : TaggedRep :=
  ⟨Payload.single (standardizeCols nm (Partition.spatial ds p)), Tag.pointCloud, none⟩

/-- Modelled from the spec (section 4.2): the possible results of a
user-supplied callable, which may fail to return a TaggedRepresentation. -/
inductive CbResult where
  | tagged (r : TaggedRep)
  | nonConforming

/-- Modelled from the spec (section 4.2): a callback is a built-in strategy
name or a user-supplied callable with the fixed signature. -/
inductive Callback where
  | localPCA
  | graphConstruction
  | spatialNorm
  | custom (f : Term → DataStore → Partition → Partition → CbResult)

/-- Modelled from the spec (section 4.2): invoking a callback on a term and
two partitions. Built-ins concatenate the partitions' raw features; the
local-pca strategy splits the joint projection back at the source row count,
and a user callable's result must already be a TaggedRepresentation (a
TypeMismatch error is raised otherwise, with no implicit wrapping). -/
def runCallback (nm : Numerics) (ds : DataStore) (term : Term)
    (p q : Partition) (cb : Callback) : Except Err TaggedRep :=
  match cb with
  | Callback.localPCA =>
    let srcX := Partition.featX ds p
    let joint := nm.pca (srcX ++ Partition.featX ds q)
    Except.ok ⟨Payload.pair (joint.take srcX.length) (joint.drop srcX.length),
      Tag.pointCloud, none⟩
  | Callback.graphConstruction =>
    Except.ok ⟨Payload.single (nm.buildGraph (Partition.featX ds p ++ Partition.featX ds q)),
      Tag.graph, none⟩
  | Callback.spatialNorm =>
    Except.ok (spatialNormRep nm ds p)
  | Callback.custom f =>
    match f term ds p q with
    | CbResult.tagged r => Except.ok r
    | CbResult.nonConforming => Except.error Err.TypeMismatch

/-- Modelled from the spec (sections 4.3 and 6): where to find a stored
attribute: a per-observation array (`obsm`) or a pairwise block matrix
(`obsp`). -/
inductive AttrLoc where
  | obsm
  | obsp
deriving DecidableEq, Repr

/-- Modelled from the spec (section 4.3): an attribute selector: location,
key, and the tag the read array is wrapped with. -/
structure AttrSel where
  loc : AttrLoc
  key : String
  tag : Tag
deriving DecidableEq, Repr

/-- Modelled from the spec (section 4.3, precedence rule 3): reading a
configured attribute and wrapping it. A per-observation array is sliced per
partition and wrapped as a point cloud (a pair for the linear term, the own
partition's rows for a quadratic term); a pairwise array is restricted to the
sub-block aligned with the problem's own partitions and wrapped with the
selector's tag. Validation failures raise ShapeMismatch; an unrecognized
cost-function identifier raises UnknownCost. -/
def attrLookup (ds : DataStore) (term : Term) (p q : Partition)
    (sel : AttrSel) (cost : Option String) : Except Err TaggedRep :=
  if costOk cost = false then Except.error Err.UnknownCost else
  match sel.loc with
  | AttrLoc.obsm =>
    match ds.obsm.lookup sel.key with
    | none => Except.error Err.KeyNotFound
    | some m =>
      match term with
      | Term.xy =>
        let a := sliceRows m p
        let b := sliceRows m q
        if a.length == p.len && b.length == q.len && matWidth a == matWidth b then
          Except.ok ⟨Payload.pair a b, Tag.pointCloud, cost⟩
        else
          Except.error Err.ShapeMismatch
      | _ =>
        let a := sliceRows m p
        if a.length == p.len then
          Except.ok ⟨Payload.single a, Tag.pointCloud, cost⟩
        else
          Except.error Err.ShapeMismatch
  | AttrLoc.obsp =>
    match ds.obsp.lookup sel.key with
    | none => Except.error Err.KeyNotFound
    | some m =>
      let blk := subBlock m p q
      if matIsSize blk p.len q.len then
        Except.ok ⟨Payload.single blk, sel.tag, cost⟩
      else
        Except.error Err.ShapeMismatch

/-- Modelled from the spec (section 4.3, precedence rule 4 and section 6):
the default resolution of a term: the default squared-Euclidean cost over the
default attribute. For the quadratic source term the spatial coordinates are
used, standardized by the spatial-norm strategy when the `normSpatial` flag
is set and passed through unscaled otherwise; the flag plays no part in any
other term. -/
def defaultRep (nm : Numerics) (ds : DataStore) (normSpatial : Bool)
    (term : Term) (p q : Partition) : TaggedRep :=
  match term with
  | Term.xy =>
    ⟨Payload.pair (Partition.featX ds p) (Partition.featX ds q),
      Tag.pointCloud, some "sq_euclidean"⟩
  | Term.x =>
    if normSpatial then
      ⟨Payload.single (standardizeCols nm (Partition.spatial ds p)),
        Tag.pointCloud, some "sq_euclidean"⟩
    else
      ⟨Payload.single (Partition.spatial ds p), Tag.pointCloud, some "sq_euclidean"⟩
  | Term.y =>
    ⟨Payload.single (Partition.featX ds q), Tag.pointCloud, some "sq_euclidean"⟩

/-- Modelled from the spec (section 4.3): the configuration supplied for one
term of one prepare call: the explicit keep-existing sentinel, a callback
with an optional explicit cost-function choice, an attribute selector with an
optional cost-function choice, or the default configuration. -/
inductive TermConfig where
  | keepExisting
  | callback (cb : Callback) (cost : Option String)
  | attr (sel : AttrSel) (cost : Option String)
  | defaultCfg

/-- Decides whether a term configuration is the explicit keep-existing
sentinel. -/
def TermConfig.isKeep : TermConfig → Bool
  | TermConfig.keepExisting => true
  | _ => false

/-- Modelled from the spec (section 4.3): the resolver's precedence chain for
one term. The keep-existing sentinel retains a previously stored
representation (falling back to the default when none is stored); a callback
configuration invokes the callback, rejecting a simultaneous cost-function
choice with ConfigConflict unless the callback output tag is cost-matrix or
graph compatible, in which case the choice is attached as the cost-function
identifier; an attribute configuration reads and wraps the stored attribute;
the default configuration applies the default resolution. Any configuration
other than the sentinel ignores the stored representation entirely. -/
def resolveTerm (nm : Numerics) (ds : DataStore) (normSpatial : Bool)
    (term : Term) (p q : Partition) (stored : Option TaggedRep)
    (cfg : TermConfig) : Except Err TaggedRep :=
  match cfg with
  | TermConfig.keepExisting =>
    match stored with
    | some r => Except.ok r
    | none => Except.ok (defaultRep nm ds normSpatial term p q)
  | TermConfig.callback cb cost =>
    match runCallback nm ds term p q cb with
    | Except.error e => Except.error e
    | Except.ok rep =>
      match cost with
      | none => Except.ok rep
      | some c =>
        if rep.tag = Tag.costMatrix ∨ rep.tag = Tag.graph then
          Except.ok { rep with cost_fn := some c }
        else
          Except.error Err.ConfigConflict
  | TermConfig.attr sel cost => attrLookup ds term p q sel cost
  | TermConfig.defaultCfg => Except.ok (defaultRep nm ds normSpatial term p q)

/-- Modelled from the spec (section 3): a pairwise problem instance: its two
partitions (by reference, read-only), the per-term tagged representations
once resolved, and the lifecycle stage. -/
structure ProblemInstance where
  src : Partition
  tgt : Partition
  xy : Option TaggedRep
  x : Option TaggedRep
  y : Option TaggedRep
  stage : Stage
deriving DecidableEq, Repr

/-- Modelled from the spec (section 4.4): stage adjustment performed by a
manual override: an INIT instance advances to PREPARED, any other stage is
kept. -/
def advanceOnSet (s : Stage) : Stage :=
  if s = Stage.INIT then Stage.PREPARED else s

/-- Modelled from the spec (section 4.4): a label-indexed matrix as supplied
to a manual override operation. -/
structure DataFrame where
  index : List String
  columns : List String
  data : Mat
deriving DecidableEq, Repr

/-- Modelled from the spec (section 4.4): manual override of the linear term.
Labels must match the source rows (index) and target rows (columns) exactly
and in order; on success the linear representation is replaced
unconditionally with the supplied tag and cost-function identifier. -/
def set_xy (ds : DataStore) (inst : ProblemInstance) (df : DataFrame)
    (tag : Tag) (cost : Option String) : Except Err ProblemInstance :=
  if df.index = Partition.rowLabels ds inst.src ∧
      df.columns = Partition.rowLabels ds inst.tgt then
    Except.ok { inst with
      xy := some ⟨Payload.single df.data, tag, cost⟩,
      stage := advanceOnSet inst.stage }
  else
    Except.error Err.LabelMismatch

/-- Modelled from the spec (section 4.4): manual override of the quadratic
source term; index and columns must both match the source partition's row
labels. -/
def set_x (ds : DataStore) (inst : ProblemInstance) (df : DataFrame)
    (tag : Tag) (cost : Option String) : Except Err ProblemInstance :=
  if df.index = Partition.rowLabels ds inst.src ∧
      df.columns = Partition.rowLabels ds inst.src then
    Except.ok { inst with
      x := some ⟨Payload.single df.data, tag, cost⟩,
      stage := advanceOnSet inst.stage }
  else
    Except.error Err.LabelMismatch

/-- Modelled from the spec (section 4.4): manual override of the quadratic
target term; index and columns must both match the target partition's row
labels. -/
def set_y (ds : DataStore) (inst : ProblemInstance) (df : DataFrame)
    (tag : Tag) (cost : Option String) : Except Err ProblemInstance :=
  if df.index = Partition.rowLabels ds inst.tgt ∧
      df.columns = Partition.rowLabels ds inst.tgt then
    Except.ok { inst with
      y := some ⟨Payload.single df.data, tag, cost⟩,
      stage := advanceOnSet inst.stage }
  else
    Except.error Err.LabelMismatch

/-- Modelled from the spec (section 4.4) and the callback notebook: manual
override of the linear term with a graph over the joint observations; index
and columns must match the concatenated source and target row labels, the
representation is tagged as a graph. -/
def set_graph_xy (ds : DataStore) (inst : ProblemInstance) (df : DataFrame)
    (cost : Option String) : Except Err ProblemInstance :=
  if df.index = Partition.rowLabels ds inst.src ++ Partition.rowLabels ds inst.tgt ∧
      df.columns = Partition.rowLabels ds inst.src ++ Partition.rowLabels ds inst.tgt then
    Except.ok { inst with
      xy := some ⟨Payload.single df.data, Tag.graph, cost⟩,
      stage := advanceOnSet inst.stage }
  else
    Except.error Err.LabelMismatch

/-- Modelled from the spec (section 6): the prepare-time configuration: one
term configuration per term plus the flag controlling spatial
standardization. -/
structure PrepareConfig where
  xy : TermConfig
  x : TermConfig
  y : TermConfig
  normSpatial : Bool

/-- Modelled from the spec (sections 4.3 and 4.5): preparing one instance:
every term is resolved through the precedence chain, a quadratic term's
resolution receiving only its own partition as both source and target; on
success the instance carries the three resolved representations and stage
PREPARED. -/
def prepareInstance (nm : Numerics) (ds : DataStore) (cfg : PrepareConfig)
    (inst : ProblemInstance) : Except Err ProblemInstance := do
  let rxy ← resolveTerm nm ds cfg.normSpatial Term.xy inst.src inst.tgt inst.xy cfg.xy
  let rx ← resolveTerm nm ds cfg.normSpatial Term.x inst.src inst.src inst.x cfg.x
  let ry ← resolveTerm nm ds cfg.normSpatial Term.y inst.tgt inst.tgt inst.y cfg.y
  Except.ok { inst with
    xy := some rxy, x := some rx, y := some ry, stage := Stage.PREPARED }

/-- Modelled from the spec (section 3): a pairwise key, the ordered pair of
distribution labels. -/
abbrev PairwiseKey := String × String

/-- Modelled from the spec (section 6): the external solver's output record:
a coupling reference, the achieved objective value, and a convergence
flag. -/
structure SolverOutput where
  coupling : Mat
  cost : ℚ
  converged : Bool
deriving DecidableEq, Repr

/-- Modelled from the spec (section 3): the registry: the insertion-ordered
mapping from pairwise keys to problem instances, and the output mapping after
solving. -/
structure Registry where
  problems : List (PairwiseKey × ProblemInstance)
  solutions : List (PairwiseKey × SolverOutput)

/-- Modelled from the spec (section 4.5): preparation of a single registry
entry: a successful per-instance preparation replaces the instance, a failure
leaves the instance untouched and reports the error for this pair. -/
def prepareEntry (nm : Numerics) (ds : DataStore) (cfg : PrepareConfig)
    (kp : PairwiseKey × ProblemInstance) :
    (PairwiseKey × ProblemInstance) × Option (PairwiseKey × Err) :=
  match prepareInstance nm ds cfg kp.2 with
  | Except.ok i => ((kp.1, i), none)
  | Except.error e => (kp, some (kp.1, e))

/-- Modelled from the spec (sections 4.5 and 7): bulk preparation: every
entry is prepared independently in insertion order; failures abort only the
affected pair and are collected into a per-pair error report alongside the
updated registry. -/
def Registry.prepare (nm : Numerics) (ds : DataStore) (cfg : PrepareConfig)
    (r : Registry) : Registry × List (PairwiseKey × Err) :=
  let results := r.problems.map (prepareEntry nm ds cfg)
  ({ problems := results.map Prod.fst, solutions := r.solutions },
    results.filterMap Prod.snd)

/-- Modelled from the spec (section 4.5): bulk solve: every targeted instance
must be PREPARED, otherwise StageError is raised at the registry boundary; on
success the external solver is invoked once per instance independently, every
instance transitions to SOLVED, and the outputs are collected keyed by
pairwise key in insertion order. -/
def Registry.solve (solver : ProblemInstance → SolverOutput) (r : Registry) :
    Except Err Registry :=
  if r.problems.all (fun kp => kp.2.stage == Stage.PREPARED) then
    Except.ok
      { problems := r.problems.map (fun kp => (kp.1, { kp.2 with stage := Stage.SOLVED })),
        solutions := r.problems.map (fun kp => (kp.1, solver kp.2)) }
  else
    Except.error Err.StageError

/-- Modelled from the spec (section 4.5): indexing the registry by pairwise
key; an unknown key raises KeyNotFound. -/
def Registry.get (r : Registry) (k : PairwiseKey) : Except Err ProblemInstance :=
  match r.problems.lookup k with
  | some i => Except.ok i
  | none => Except.error Err.KeyNotFound

/-! Concrete data used by the witness theorems: a four-observation store split
into two partitions of two observations each. -/

/-- Witness numerics: the identity projection, the identity graph builder,
and the constant standard deviation one. -/
def nmW : Numerics :=
  { pca := id, buildGraph := fun m => m, stddev := fun _ => 1 }

/-- Witness data store with four observations. -/
def dsW : DataStore :=
  { labels := ["a0", "a1", "b0", "b1"]
    X := [[1, 2], [3, 4], [5, 6], [7, 8]]
    obsm := [("feat", [[1], [2], [3], [4]])]
    obsp := [("cm", [[0, 1, 2, 3], [1, 0, 4, 5], [2, 4, 0, 6], [3, 5, 6, 0]])]
    spatialCols := [[0, 2, 0, 2]] }

/-- Witness source partition: the first two observations. -/
def pA : Partition := { start := 0, len := 2 }

/-- Witness target partition: the last two observations. -/
def pB : Partition := { start := 2, len := 2 }

/-- Witness problem instance over the two witness partitions, unprepared. -/
def instW : ProblemInstance :=
  { src := pA, tgt := pB, xy := none, x := none, y := none, stage := Stage.INIT }

/-- Witness prepare configuration: every term default, spatial
standardization on. -/
def cfgW : PrepareConfig :=
  { xy := TermConfig.defaultCfg, x := TermConfig.defaultCfg,
    y := TermConfig.defaultCfg, normSpatial := true }

/-! Helper lemmas destructuring the resolver and the per-instance
preparation. -/

/-- Resolution of any configuration other than the keep-existing sentinel
ignores the stored representation: the full precedence chain is re-run. -/
theorem resolveTerm_ignores_stored (nm : Numerics) (ds : DataStore)
    (ns : Bool) (term : Term) (p q : Partition) (st : Option TaggedRep)
    (cfg : TermConfig) (h : TermConfig.isKeep cfg = false) :
    resolveTerm nm ds ns term p q st cfg = resolveTerm nm ds ns term p q none cfg := by
  cases cfg with
  | keepExisting => simp [TermConfig.isKeep] at h
  | callback cb cost => rfl
  | attr sel cost => rfl
  | defaultCfg => rfl

/-- Resolution under the keep-existing sentinel retains any stored
representation. -/
theorem resolveTerm_keep_retains (nm : Numerics) (ds : DataStore) (ns : Bool)
    (term : Term) (p q : Partition) (r : TaggedRep) :
    resolveTerm nm ds ns term p q (some r) TermConfig.keepExisting = Except.ok r := rfl

/-- Characterization of a successful per-instance preparation: every term
resolved through the chain and the instance updated to PREPARED. -/
theorem prepareInstance_ok_iff (nm : Numerics) (ds : DataStore)
    (cfg : PrepareConfig) (inst out : ProblemInstance) :
    prepareInstance nm ds cfg inst = Except.ok out ↔
      ∃ rxy rx ry,
        resolveTerm nm ds cfg.normSpatial Term.xy inst.src inst.tgt inst.xy cfg.xy
          = Except.ok rxy
        ∧ resolveTerm nm ds cfg.normSpatial Term.x inst.src inst.src inst.x cfg.x
          = Except.ok rx
        ∧ resolveTerm nm ds cfg.normSpatial Term.y inst.tgt inst.tgt inst.y cfg.y
          = Except.ok ry
        ∧ out = { inst with
            xy := some rxy, x := some rx, y := some ry, stage := Stage.PREPARED } := by
  unfold prepareInstance
  simp only [bind, Except.bind]
  cases hxy : resolveTerm nm ds cfg.normSpatial Term.xy inst.src inst.tgt inst.xy cfg.xy with
  | error e => simp
  | ok rxy =>
    cases hx : resolveTerm nm ds cfg.normSpatial Term.x inst.src inst.src inst.x cfg.x with
    | error e => simp
    | ok rx =>
      cases hy : resolveTerm nm ds cfg.normSpatial Term.y inst.tgt inst.tgt inst.y cfg.y with
      | error e => simp
      | ok ry =>
        constructor
        · intro h
          exact ⟨rxy, rx, ry, rfl, rfl, rfl, (Except.ok.injEq _ _).mp h.symm⟩
        · rintro ⟨rxy', rx', ry', h1, h2, h3, h4⟩
          cases h1
          cases h2
          cases h3
          rw [h4]

/-- A successfully prepared instance is in stage PREPARED. -/
theorem prepareInstance_stage (nm : Numerics) (ds : DataStore)
    (cfg : PrepareConfig) (inst out : ProblemInstance)
    (h : prepareInstance nm ds cfg inst = Except.ok out) :
    out.stage = Stage.PREPARED := by
  obtain ⟨rxy, rx, ry, _, _, _, h4⟩ := (prepareInstance_ok_iff nm ds cfg inst out).mp h
  rw [h4]

/-! Helper lemmas on sums, means and variances, used for the spatial
standardization claim. -/

/-- Sum of a list after subtracting a constant from every entry. -/
theorem sum_map_sub_const (xs : List ℚ) (c : ℚ) :
    (xs.map (fun v => v - c)).sum = xs.sum - (xs.length : ℚ) * c := by
  induction xs with
  | nil => simp
  | cons a t ih =>
    simp only [List.map_cons, List.sum_cons, ih, List.length_cons]
    push_cast
    ring

/-- Sum of a list after dividing every entry by a constant. -/
theorem sum_map_div_const (xs : List ℚ) (f : ℚ → ℚ) (c : ℚ) :
    (xs.map (fun v => f v / c)).sum = (xs.map f).sum / c := by
  induction xs with
  | nil => simp
  | cons a t ih =>
    simp only [List.map_cons, List.sum_cons, ih]
    ring

/-- Casting the length of a nonempty list to the rationals is nonzero. -/
theorem length_cast_ne_zero (xs : List ℚ) (h : xs ≠ []) :
    (xs.length : ℚ) ≠ 0 := by
  have : 0 < xs.length := List.length_pos.mpr h
  exact_mod_cast Nat.pos_iff_ne_zero.mp this

/-- Entries of a standardized column sum to zero. -/
theorem sum_standardizeCol (nm : Numerics) (xs : List ℚ) (h : xs ≠ []) :
    (standardizeCol nm xs).sum = 0 := by
  have hn := length_cast_ne_zero xs h
  unfold standardizeCol
  rw [sum_map_div_const xs (fun v => v - mean xs) (nm.stddev xs),
    sum_map_sub_const xs (mean xs)]
  have hcancel : (xs.length : ℚ) * mean xs = xs.sum := by
    unfold mean
    field_simp
  rw [hcancel, sub_self, zero_div]

/-- Mean of a standardized column is zero. -/
theorem mean_standardizeCol (nm : Numerics) (xs : List ℚ) (h : xs ≠ []) :
    mean (standardizeCol nm xs) = 0 := by
  unfold mean
  rw [sum_standardizeCol nm xs h, zero_div]

/-- Variance of a standardized column is one, provided the external standard
deviation squares to the variance and is nonzero. -/
theorem variance_standardizeCol (nm : Numerics) (xs : List ℚ) (h : xs ≠ [])
    (hsd : nm.stddev xs ≠ 0) (hvar : nm.stddev xs ^ 2 = variance xs) :
    variance (standardizeCol nm xs) = 1 := by
  have hn := length_cast_ne_zero xs h
  have hsq : nm.stddev xs ^ 2 ≠ 0 := pow_ne_zero 2 hsd
  unfold variance
  rw [mean_standardizeCol nm xs h]
  simp only [sub_zero]
  unfold standardizeCol
  rw [List.map_map, List.length_map]
  simp only [Function.comp_def, div_pow]
  rw [sum_map_div_const xs (fun v => (v - mean xs) ^ 2) (nm.stddev xs ^ 2)]
  have hS : (xs.map (fun v => (v - mean xs) ^ 2)).sum = variance xs * (xs.length : ℚ) := by
    unfold variance
    field_simp
  rw [hS, ← hvar]
  field_simp

/-- C10: the normalize-spatial flag standardizes the quadratic source term
only. With the flag on, the default resolution of term x is the feature-wise
standardized spatial payload, and every standardized coordinate column has
variance one (equivalently, unit standard deviation) whenever the external
standard deviation squares to the variance of the raw column; with the flag
off, the same spatial payload passes through unscaled; and the flag never
alters the resolution of the linear xy term under any configuration. -/
theorem normalize_spatial_spec (nm : Numerics) (ds : DataStore)
    (p q : Partition) (stored : Option TaggedRep) :
    resolveTerm nm ds true Term.x p p stored TermConfig.defaultCfg
      = Except.ok ⟨Payload.single (standardizeCols nm (Partition.spatial ds p)),
          Tag.pointCloud, some "sq_euclidean"⟩
    ∧ (∀ col ∈ Partition.spatial ds p, col ≠ [] → nm.stddev col ≠ 0 →
        nm.stddev col ^ 2 = variance col →
        variance (standardizeCol nm col) = 1)
    ∧ standardizeCols nm (Partition.spatial ds p)
        = (Partition.spatial ds p).map (standardizeCol nm)
    ∧ resolveTerm nm ds false Term.x p p stored TermConfig.defaultCfg
      = Except.ok ⟨Payload.single (Partition.spatial ds p),
          Tag.pointCloud, some "sq_euclidean"⟩
    ∧ (∀ (f₁ f₂ : Bool) (st : Option TaggedRep) (cfg : TermConfig),
        resolveTerm nm ds f₁ Term.xy p q st cfg
          = resolveTerm nm ds f₂ Term.xy p q st cfg) := by
  refine ⟨rfl, ?_, rfl, rfl, ?_⟩
  · intro col _ hne hsd hvar
    exact variance_standardizeCol nm col hne hsd hvar
  · intro f₁ f₂ st cfg
    cases cfg <;> cases st <;> rfl

/-- Witness for C10 at concrete data: the single spatial column of the
witness store restricted to the source partition standardizes to variance
one, and the flag-off resolution passes the raw column through. -/
theorem normalize_spatial_spec_witness :
    variance (standardizeCol nmW ([0, 2] : List ℚ)) = 1
    ∧ resolveTerm nmW dsW false Term.x pA pA none TermConfig.defaultCfg
      = Except.ok ⟨Payload.single [[0, 2]], Tag.pointCloud, some "sq_euclidean"⟩ := by
  have h := normalize_spatial_spec nmW dsW pA pB none
  constructor
  · refine h.2.1 [0, 2] ?_ ?_ ?_ ?_
    · show [0, 2] ∈ Partition.spatial dsW pA
      simp [Partition.spatial, dsW, pA]
    · simp
    · norm_num [nmW]
    · norm_num [nmW, variance, mean]
  · have h4 := h.2.2.2.1
    simpa [Partition.spatial, dsW, pA] using h4

/-- C2: in any lifecycle stage and for label-aligned input, each manual
override operation replaces the corresponding tagged representation
unconditionally with the supplied tag and cost identifier and advances an
INIT stage to PREPARED; misaligned index or column labels raise
LabelMismatch and nothing is replaced. -/
theorem manual_override_ops_spec (ds : DataStore) (inst : ProblemInstance)
    (df : DataFrame) (tag : Tag) (cost : Option String) :
    (df.index = Partition.rowLabels ds inst.src
        ∧ df.columns = Partition.rowLabels ds inst.tgt →
      set_xy ds inst df tag cost = Except.ok { inst with
        xy := some ⟨Payload.single df.data, tag, cost⟩,
        stage := advanceOnSet inst.stage })
    ∧ (¬(df.index = Partition.rowLabels ds inst.src
        ∧ df.columns = Partition.rowLabels ds inst.tgt) →
      set_xy ds inst df tag cost = Except.error Err.LabelMismatch)
    ∧ (df.index = Partition.rowLabels ds inst.src
        ∧ df.columns = Partition.rowLabels ds inst.src →
      set_x ds inst df tag cost = Except.ok { inst with
        x := some ⟨Payload.single df.data, tag, cost⟩,
        stage := advanceOnSet inst.stage })
    ∧ (¬(df.index = Partition.rowLabels ds inst.src
        ∧ df.columns = Partition.rowLabels ds inst.src) →
      set_x ds inst df tag cost = Except.error Err.LabelMismatch)
    ∧ (df.index = Partition.rowLabels ds inst.tgt
        ∧ df.columns = Partition.rowLabels ds inst.tgt →
      set_y ds inst df tag cost = Except.ok { inst with
        y := some ⟨Payload.single df.data, tag, cost⟩,
        stage := advanceOnSet inst.stage })
    ∧ (¬(df.index = Partition.rowLabels ds inst.tgt
        ∧ df.columns = Partition.rowLabels ds inst.tgt) →
      set_y ds inst df tag cost = Except.error Err.LabelMismatch)
    ∧ (df.index = Partition.rowLabels ds inst.src ++ Partition.rowLabels ds inst.tgt
        ∧ df.columns = Partition.rowLabels ds inst.src ++ Partition.rowLabels ds inst.tgt →
      set_graph_xy ds inst df cost = Except.ok { inst with
        xy := some ⟨Payload.single df.data, Tag.graph, cost⟩,
        stage := advanceOnSet inst.stage })
    ∧ (¬(df.index = Partition.rowLabels ds inst.src ++ Partition.rowLabels ds inst.tgt
        ∧ df.columns = Partition.rowLabels ds inst.src ++ Partition.rowLabels ds inst.tgt) →
      set_graph_xy ds inst df cost = Except.error Err.LabelMismatch)
    ∧ advanceOnSet Stage.INIT = Stage.PREPARED
    ∧ (∀ s, s ≠ Stage.INIT → advanceOnSet s = s) := by
  refine ⟨?_, ?_, ?_, ?_, ?_, ?_, ?_, ?_, rfl, ?_⟩
  · intro h
    simp [set_xy, h]
  · intro h
    simp only [set_xy]
    rw [if_neg h]
  · intro h
    simp [set_x, h]
  · intro h
    simp only [set_x]
    rw [if_neg h]
  · intro h
    simp [set_y, h]
  · intro h
    simp only [set_y]
    rw [if_neg h]
  · intro h
    simp [set_graph_xy, h]
  · intro h
    simp only [set_graph_xy]
    rw [if_neg h]
  · intro s hs
    simp [advanceOnSet, hs]

/-- Witness for C2 at concrete data: an aligned linear override on an INIT
instance succeeds, replaces the linear term, and advances the stage to
PREPARED, while a permuted index raises LabelMismatch. -/
theorem manual_override_ops_spec_witness :
    set_xy dsW instW ⟨["a0", "a1"], ["b0", "b1"], [[1, 0], [0, 1]]⟩
        Tag.costMatrix (some "custom")
      = Except.ok { instW with
          xy := some ⟨Payload.single [[1, 0], [0, 1]], Tag.costMatrix, some "custom"⟩,
          stage := advanceOnSet instW.stage }
    ∧ set_xy dsW instW ⟨["a1", "a0"], ["b0", "b1"], [[1, 0], [0, 1]]⟩
        Tag.costMatrix (some "custom")
      = Except.error Err.LabelMismatch := by
  constructor
  · exact (manual_override_ops_spec dsW instW
      ⟨["a0", "a1"], ["b0", "b1"], [[1, 0], [0, 1]]⟩ Tag.costMatrix (some "custom")).1
      (by constructor <;> rfl)
  · exact (manual_override_ops_spec dsW instW
      ⟨["a1", "a0"], ["b0", "b1"], [[1, 0], [0, 1]]⟩ Tag.costMatrix (some "custom")).2.1
      (by intro h; exact absurd h.1 (by decide))

/-- C1: a manual override in place survives a subsequent prepare exactly
under the explicit keep-existing sentinel. After a successful set_graph_xy,
preparing with the sentinel for the linear term retains the override, while
preparing with any other term configuration re-runs the full precedence
chain from scratch and replaces the override with the freshly resolved
representation; in general the sentinel retains any stored representation
and every non-sentinel configuration resolves as if nothing were stored. -/
theorem override_survives_iff_keep (nm : Numerics) (ds : DataStore)
    (cfg : PrepareConfig) (inst inst' : ProblemInstance) (df : DataFrame)
    (c0 : Option String)
    (hset : set_graph_xy ds inst df c0 = Except.ok inst') :
    (cfg.xy = TermConfig.keepExisting →
      ∀ out, prepareInstance nm ds cfg inst' = Except.ok out →
        out.xy = some ⟨Payload.single df.data, Tag.graph, c0⟩)
    ∧ (TermConfig.isKeep cfg.xy = false →
      ∀ out, prepareInstance nm ds cfg inst' = Except.ok out →
        ∃ fresh,
          resolveTerm nm ds cfg.normSpatial Term.xy inst'.src inst'.tgt none cfg.xy
            = Except.ok fresh
          ∧ out.xy = some fresh)
    ∧ (∀ (term : Term) (p q : Partition) (r : TaggedRep),
        resolveTerm nm ds cfg.normSpatial term p q (some r) TermConfig.keepExisting
          = Except.ok r)
    ∧ (∀ (term : Term) (p q : Partition) (st : Option TaggedRep) (cfg' : TermConfig),
        TermConfig.isKeep cfg' = false →
        resolveTerm nm ds cfg.normSpatial term p q st cfg'
          = resolveTerm nm ds cfg.normSpatial term p q none cfg') := by
  have hinst' : inst' = { inst with
      xy := some ⟨Payload.single df.data, Tag.graph, c0⟩,
      stage := advanceOnSet inst.stage } := by
    unfold set_graph_xy at hset
    split at hset
    · exact ((Except.ok.injEq _ _).mp hset).symm
    · exact absurd hset (by simp)
  refine ⟨?_, ?_, ?_, ?_⟩
  · intro hkeep out hout
    obtain ⟨rxy, rx, ry, h1, _, _, h4⟩ :=
      (prepareInstance_ok_iff nm ds cfg inst' out).mp hout
    rw [hkeep, hinst'] at h1
    rw [h4]
    simpa using ((Except.ok.injEq _ _).mp h1).symm
  · intro hnk out hout
    obtain ⟨rxy, rx, ry, h1, _, _, h4⟩ :=
      (prepareInstance_ok_iff nm ds cfg inst' out).mp hout
    rw [resolveTerm_ignores_stored nm ds cfg.normSpatial Term.xy inst'.src inst'.tgt
      inst'.xy cfg.xy hnk] at h1
    exact ⟨rxy, h1, by rw [h4]⟩
  · intro term p q r
    exact resolveTerm_keep_retains nm ds cfg.normSpatial term p q r
  · intro term p q st cfg' hk
    exact resolveTerm_ignores_stored nm ds cfg.normSpatial term p q st cfg' hk

/-- Witness graph override for the C1 witness: a graph over the four joint
observations. -/
def dfG : DataFrame :=
  { index := ["a0", "a1", "b0", "b1"]
    columns := ["a0", "a1", "b0", "b1"]
    data := [[0, 1, 0, 0], [1, 0, 0, 0], [0, 0, 0, 1], [0, 0, 1, 0]] }

/-- Witness instance carrying the manual graph override. -/
def instG : ProblemInstance :=
  { src := pA, tgt := pB
    xy := some ⟨Payload.single dfG.data, Tag.graph, some "geodesic"⟩
    x := none, y := none, stage := Stage.PREPARED }

/-- Witness prepare configuration keeping the linear term. -/
def cfgKeep : PrepareConfig :=
  { xy := TermConfig.keepExisting, x := TermConfig.defaultCfg,
    y := TermConfig.defaultCfg, normSpatial := false }

/-- Witness prepare configuration resolving the linear term by default. -/
def cfgFresh : PrepareConfig :=
  { xy := TermConfig.defaultCfg, x := TermConfig.defaultCfg,
    y := TermConfig.defaultCfg, normSpatial := false }

/-- Witness output of re-preparing under the keep-existing sentinel. -/
def outKeep : ProblemInstance :=
  { src := pA, tgt := pB
    xy := some ⟨Payload.single dfG.data, Tag.graph, some "geodesic"⟩
    x := some ⟨Payload.single [[0, 2]], Tag.pointCloud, some "sq_euclidean"⟩
    y := some ⟨Payload.single [[5, 6], [7, 8]], Tag.pointCloud, some "sq_euclidean"⟩
    stage := Stage.PREPARED }

/-- Witness output of re-preparing under the default configuration. -/
def outFresh : ProblemInstance :=
  { src := pA, tgt := pB
    xy := some ⟨Payload.pair [[1, 2], [3, 4]] [[5, 6], [7, 8]],
      Tag.pointCloud, some "sq_euclidean"⟩
    x := some ⟨Payload.single [[0, 2]], Tag.pointCloud, some "sq_euclidean"⟩
    y := some ⟨Payload.single [[5, 6], [7, 8]], Tag.pointCloud, some "sq_euclidean"⟩
    stage := Stage.PREPARED }

/-- Witness for C1 at concrete data: after a graph override, re-preparing
with the sentinel keeps the graph representation, while re-preparing with
the default configuration replaces it by the freshly resolved point
cloud. -/
theorem override_survives_iff_keep_witness :
    outKeep.xy = some ⟨Payload.single dfG.data, Tag.graph, some "geodesic"⟩
    ∧ ∃ fresh,
        resolveTerm nmW dsW cfgFresh.normSpatial Term.xy instG.src instG.tgt none cfgFresh.xy
          = Except.ok fresh
        ∧ outFresh.xy = some fresh := by
  constructor
  · exact (override_survives_iff_keep nmW dsW cfgKeep instW instG dfG
      (some "geodesic") rfl).1 rfl outKeep rfl
  · exact (override_survives_iff_keep nmW dsW cfgFresh instW instG dfG
      (some "geodesic") rfl).2.1 rfl outFresh rfl

/-! Helper lemmas on the registry operations. -/

/-- Solving a registry whose instances are all PREPARED succeeds with the
explicit per-pair solver outputs and SOLVED instances. -/
theorem solve_ok_of_all_prepared (solver : ProblemInstance → SolverOutput)
    (r : Registry) (h : ∀ kp ∈ r.problems, kp.2.stage = Stage.PREPARED) :
    Registry.solve solver r = Except.ok
      { problems := r.problems.map (fun kp => (kp.1, { kp.2 with stage := Stage.SOLVED })),
        solutions := r.problems.map (fun kp => (kp.1, solver kp.2)) } := by
  unfold Registry.solve
  rw [if_pos]
  simp only [List.all_eq_true, beq_iff_eq]
  exact h

/-- Solving a registry holding an instance that is not PREPARED raises
StageError. -/
theorem solve_error_of_not_prepared (solver : ProblemInstance → SolverOutput)
    (r : Registry) (h : ∃ kp ∈ r.problems, kp.2.stage ≠ Stage.PREPARED) :
    Registry.solve solver r = Except.error Err.StageError := by
  unfold Registry.solve
  rw [if_neg]
  simp only [List.all_eq_true, beq_iff_eq]
  push_neg
  exact h

/-- Destructuring a successful solve: the instances all transition to SOLVED
and the output mapping pairs each key with its own solver output. -/
theorem solve_ok_dest (solver : ProblemInstance → SolverOutput) (r r1 : Registry)
    (h : Registry.solve solver r = Except.ok r1) :
    r1.problems = r.problems.map (fun kp => (kp.1, { kp.2 with stage := Stage.SOLVED }))
    ∧ r1.solutions = r.problems.map (fun kp => (kp.1, solver kp.2)) := by
  unfold Registry.solve at h
  split at h
  · have := (Except.ok.injEq _ _).mp h
    rw [← this]
    exact ⟨rfl, rfl⟩
  · exact absurd h (by simp)

/-- Bulk preparation preserves the pairwise keys in insertion order. -/
theorem prepare_keys_preserved (nm : Numerics) (ds : DataStore)
    (cfg : PrepareConfig) (r : Registry) :
    (Registry.prepare nm ds cfg r).fst.problems.map Prod.fst
      = r.problems.map Prod.fst := by
  unfold Registry.prepare
  simp only [List.map_map]
  apply List.map_congr_left
  intro kp _
  cases h : prepareInstance nm ds cfg kp.2 <;> simp [prepareEntry, h]

/-- Entries of a bulk preparation reporting no errors are all in stage
PREPARED, stated over a plain entry list. -/
theorem entries_no_errors_prepared (nm : Numerics) (ds : DataStore)
    (cfg : PrepareConfig) (l : List (PairwiseKey × ProblemInstance))
    (h : (l.map (prepareEntry nm ds cfg)).filterMap Prod.snd = []) :
    ∀ kp ∈ (l.map (prepareEntry nm ds cfg)).map Prod.fst,
      kp.2.stage = Stage.PREPARED := by
  induction l with
  | nil => simp
  | cons a t ih =>
    simp only [List.map_cons, List.filterMap_cons] at h ⊢
    cases hpe : prepareInstance nm ds cfg a.2 with
    | ok i =>
      simp only [prepareEntry, hpe] at h ⊢
      intro kp hkp
      rcases List.mem_cons.mp hkp with heq | hmem
      · rw [heq]
        exact prepareInstance_stage nm ds cfg a.2 i hpe
      · exact ih h kp hmem
    | error e =>
      simp [prepareEntry, hpe] at h

/-- A bulk preparation reporting no errors leaves every instance in stage
PREPARED. -/
theorem prepare_no_errors_all_prepared (nm : Numerics) (ds : DataStore)
    (cfg : PrepareConfig) (r : Registry)
    (h : (Registry.prepare nm ds cfg r).snd = []) :
    ∀ kp ∈ (Registry.prepare nm ds cfg r).fst.problems, kp.2.stage = Stage.PREPARED := by
  exact entries_no_errors_prepared nm ds cfg r.problems h

/-- C3: solve requires every targeted instance to be PREPARED, raising
StageError otherwise; on success the solver is invoked once per instance
independently, the output mapping is keyed by the pairwise keys in insertion
order with each value the solver output (carrying coupling, objective and
convergence flag), and every instance transitions to SOLVED. -/
theorem registry_solve_spec (r : Registry) (solver : ProblemInstance → SolverOutput) :
    ((∃ kp ∈ r.problems, kp.2.stage ≠ Stage.PREPARED) →
      Registry.solve solver r = Except.error Err.StageError)
    ∧ ((∀ kp ∈ r.problems, kp.2.stage = Stage.PREPARED) →
      ∃ r1, Registry.solve solver r = Except.ok r1
        ∧ r1.solutions.map Prod.fst = r.problems.map Prod.fst
        ∧ r1.solutions = r.problems.map (fun kp => (kp.1, solver kp.2))
        ∧ r1.problems.map Prod.fst = r.problems.map Prod.fst
        ∧ ∀ kp ∈ r1.problems, kp.2.stage = Stage.SOLVED) := by
  constructor
  · exact solve_error_of_not_prepared solver r
  · intro h
    refine ⟨_, solve_ok_of_all_prepared solver r h, ?_, rfl, ?_, ?_⟩
    · simp [List.map_map, Function.comp_def]
    · simp [List.map_map, Function.comp_def]
    · intro kp hkp
      obtain ⟨kq, _, hkq⟩ := List.mem_map.mp hkp
      rw [← hkq]

/-- Witness PREPARED instance for the registry claims. -/
def instP : ProblemInstance :=
  { src := pA, tgt := pB
    xy := some ⟨Payload.pair [[1, 2], [3, 4]] [[5, 6], [7, 8]],
      Tag.pointCloud, some "sq_euclidean"⟩
    x := some ⟨Payload.single [[0, 2]], Tag.pointCloud, some "sq_euclidean"⟩
    y := some ⟨Payload.single [[5, 6], [7, 8]], Tag.pointCloud, some "sq_euclidean"⟩
    stage := Stage.PREPARED }

/-- Witness solver returning a fixed output. -/
def solverW : ProblemInstance → SolverOutput :=
  fun _ => { coupling := [[1, 0], [0, 1]], cost := 5, converged := true }

/-- Witness for C3 at concrete data: a registry with one PREPARED instance
solves to one SOLVED instance with its solver output, while the same
registry with the instance still at INIT raises StageError. -/
theorem registry_solve_spec_witness :
    (∃ r1, Registry.solve solverW ⟨[(("a", "b"), instP)], []⟩ = Except.ok r1
      ∧ r1.solutions.map Prod.fst = [(("a", "b") : PairwiseKey)]
      ∧ r1.solutions = [(("a", "b"), solverW instP)]
      ∧ r1.problems.map Prod.fst = [(("a", "b") : PairwiseKey)]
      ∧ ∀ kp ∈ r1.problems, kp.2.stage = Stage.SOLVED)
    ∧ Registry.solve solverW ⟨[(("a", "b"), instW)], []⟩
      = Except.error Err.StageError := by
  constructor
  · have h := (registry_solve_spec ⟨[(("a", "b"), instP)], []⟩ solverW).2
      (by
        intro kp hkp
        simp only [List.mem_singleton] at hkp
        rw [hkp]
        rfl)
    simpa using h
  · exact (registry_solve_spec ⟨[(("a", "b"), instW)], []⟩ solverW).1
      ⟨(("a", "b"), instW), by simp, by simp [instW]⟩

/-- C5: a validation failure during one pair's preparation aborts only that
pair: in a registry of three pairwise keys whose middle instance fails to
resolve while the others succeed, bulk preparation returns the two prepared
instances, leaves the failing instance untouched, reports exactly the one
per-pair error, and preserves every key; in general bulk preparation
preserves the registry's keys in insertion order. -/
theorem prepare_partial_failure_spec (nm : Numerics) (ds : DataStore)
    (cfg : PrepareConfig) (ka kb kc : PairwiseKey)
    (ia ib ic ia2 ic2 : ProblemInstance) (e : Err)
    (ha : prepareInstance nm ds cfg ia = Except.ok ia2)
    (hb : prepareInstance nm ds cfg ib = Except.error e)
    (hc : prepareInstance nm ds cfg ic = Except.ok ic2) :
    Registry.prepare nm ds cfg ⟨[(ka, ia), (kb, ib), (kc, ic)], []⟩
      = (⟨[(ka, ia2), (kb, ib), (kc, ic2)], []⟩, [(kb, e)])
    ∧ ia2.stage = Stage.PREPARED
    ∧ ic2.stage = Stage.PREPARED
    ∧ ∀ (r : Registry),
        (Registry.prepare nm ds cfg r).fst.problems.map Prod.fst
          = r.problems.map Prod.fst := by
  refine ⟨?_, prepareInstance_stage nm ds cfg ia ia2 ha,
    prepareInstance_stage nm ds cfg ic ic2 hc,
    prepare_keys_preserved nm ds cfg⟩
  simp [Registry.prepare, prepareEntry, ha, hb, hc]

/-- Witness failing instance for C5: its source partition reaches past the
stored per-observation array, so attribute resolution of the linear term
fails with ShapeMismatch. -/
def instBad : ProblemInstance :=
  { src := { start := 2, len := 3 }, tgt := pB
    xy := none, x := none, y := none, stage := Stage.INIT }

/-- Witness configuration resolving the linear term from the stored
per-observation array. -/
def cfgAttr : PrepareConfig :=
  { xy := TermConfig.attr ⟨AttrLoc.obsm, "feat", Tag.pointCloud⟩ none
    x := TermConfig.defaultCfg, y := TermConfig.defaultCfg, normSpatial := false }

/-- Witness for C5 at concrete data: of three pairwise keys the middle one
fails with ShapeMismatch while the outer two prepare successfully, so bulk
preparation reports exactly one error and two prepared instances. -/
theorem prepare_partial_failure_spec_witness :
    ∃ ia2 ic2 : ProblemInstance,
      Registry.prepare nmW dsW cfgAttr
          ⟨[(("a", "b"), instW), (("b", "c"), instBad), (("c", "d"), instW)], []⟩
        = (⟨[(("a", "b"), ia2), (("b", "c"), instBad), (("c", "d"), ic2)], []⟩,
            [(("b", "c"), Err.ShapeMismatch)])
      ∧ ia2.stage = Stage.PREPARED
      ∧ ic2.stage = Stage.PREPARED := by
  obtain ⟨ia2, ha⟩ : ∃ i, prepareInstance nmW dsW cfgAttr instW = Except.ok i :=
    ⟨_, rfl⟩
  have hb : prepareInstance nmW dsW cfgAttr instBad = Except.error Err.ShapeMismatch := rfl
  have h := prepare_partial_failure_spec nmW dsW cfgAttr
    ("a", "b") ("b", "c") ("c", "d") instW instBad instW ia2 ia2
    Err.ShapeMismatch ha hb ha
  exact ⟨ia2, ia2, h.1, h.2.1, h.2.2.1⟩

/-- C8: the SOLVED stage is not terminal: after a successful solve, a bulk
re-preparation that reports no errors returns every instance to stage
PREPARED, after which solve succeeds again and produces a fresh output
mapping; the solved registry's instances were all SOLVED beforehand. -/
theorem solved_not_terminal_spec (nm : Numerics) (ds : DataStore)
    (cfg : PrepareConfig) (solver solver2 : ProblemInstance → SolverOutput)
    (r r1 : Registry)
    (hsolve : Registry.solve solver r = Except.ok r1)
    (hprep : (Registry.prepare nm ds cfg r1).snd = []) :
    (∀ kp ∈ r1.problems, kp.2.stage = Stage.SOLVED)
    ∧ (∀ kp ∈ (Registry.prepare nm ds cfg r1).fst.problems,
        kp.2.stage = Stage.PREPARED)
    ∧ ∃ r3, Registry.solve solver2 (Registry.prepare nm ds cfg r1).fst = Except.ok r3
        ∧ r3.solutions = (Registry.prepare nm ds cfg r1).fst.problems.map
            (fun kp => (kp.1, solver2 kp.2)) := by
  have hall := prepare_no_errors_all_prepared nm ds cfg r1 hprep
  refine ⟨?_, hall, ?_⟩
  · intro kp hkp
    rw [(solve_ok_dest solver r r1 hsolve).1] at hkp
    obtain ⟨kq, _, hkq⟩ := List.mem_map.mp hkp
    rw [← hkq]
  · exact ⟨_, solve_ok_of_all_prepared solver2 _ hall, rfl⟩

/-- Witness registry after solving the one-pair witness registry. -/
def regSolvedW : Registry :=
  { problems := [(("a", "b"), { instP with stage := Stage.SOLVED })]
    solutions := [(("a", "b"), solverW instP)] }

/-- Witness for C8 at concrete data: the one-pair registry solves, re-prepares
with every instance back at PREPARED, and solves again. -/
theorem solved_not_terminal_spec_witness :
    (∀ kp ∈ (Registry.prepare nmW dsW cfgFresh regSolvedW).fst.problems,
      kp.2.stage = Stage.PREPARED)
    ∧ ∃ r3, Registry.solve solverW (Registry.prepare nmW dsW cfgFresh regSolvedW).fst
        = Except.ok r3 := by
  have h := solved_not_terminal_spec nmW dsW cfgFresh solverW solverW
    ⟨[(("a", "b"), instP)], []⟩ regSolvedW rfl rfl
  obtain ⟨r3, h3, _⟩ := h.2.2
  exact ⟨h.2.1, r3, h3⟩

/-- C4: a callback configured together with an explicit cost-function choice
is rejected with ConfigConflict unless the callback output tag is
cost-matrix or graph compatible, in which case the choice is attached to the
resolved representation as its cost-function identifier; in particular the
graph-construction callback combined with the geodesic cost succeeds with
tag GRAPH and cost identifier geodesic. -/
theorem callback_cost_conflict_spec (nm : Numerics) (ds : DataStore)
    (ns : Bool) (term : Term) (p q : Partition) (stored : Option TaggedRep)
    (cb : Callback) (c : String) :
    (∀ rep, runCallback nm ds term p q cb = Except.ok rep →
      rep.tag ≠ Tag.costMatrix → rep.tag ≠ Tag.graph →
      resolveTerm nm ds ns term p q stored (TermConfig.callback cb (some c))
        = Except.error Err.ConfigConflict)
    ∧ (∀ rep, runCallback nm ds term p q cb = Except.ok rep →
      rep.tag = Tag.costMatrix ∨ rep.tag = Tag.graph →
      resolveTerm nm ds ns term p q stored (TermConfig.callback cb (some c))
        = Except.ok { rep with cost_fn := some c })
    ∧ resolveTerm nm ds ns term p q stored
        (TermConfig.callback Callback.graphConstruction (some "geodesic"))
      = Except.ok ⟨Payload.single
          (nm.buildGraph (Partition.featX ds p ++ Partition.featX ds q)),
          Tag.graph, some "geodesic"⟩ := by
  refine ⟨?_, ?_, rfl⟩
  · intro rep hrep hnc hng
    simp only [resolveTerm, hrep]
    rw [if_neg]
    rintro (h | h)
    · exact hnc h
    · exact hng h
  · intro rep hrep hc
    simp only [resolveTerm, hrep]
    rw [if_pos hc]

/-- Witness for C4 at concrete data: the local-pca callback (tag POINT_CLOUD)
combined with an explicit geodesic cost raises ConfigConflict, while the
graph-construction callback with the geodesic cost resolves to tag GRAPH
with cost identifier geodesic. -/
theorem callback_cost_conflict_spec_witness :
    resolveTerm nmW dsW false Term.xy pA pB none
        (TermConfig.callback Callback.localPCA (some "geodesic"))
      = Except.error Err.ConfigConflict
    ∧ resolveTerm nmW dsW false Term.xy pA pB none
        (TermConfig.callback Callback.graphConstruction (some "geodesic"))
      = Except.ok ⟨Payload.single [[1, 2], [3, 4], [5, 6], [7, 8]],
          Tag.graph, some "geodesic"⟩ := by
  have h := callback_cost_conflict_spec nmW dsW false Term.xy pA pB none
    Callback.localPCA "geodesic"
  constructor
  · exact h.1 ⟨Payload.pair [[1, 2], [3, 4]] [[5, 6], [7, 8]], Tag.pointCloud, none⟩
      rfl (by decide) (by decide)
  · exact h.2.2.trans rfl

/-- C6: the local-pca built-in returns tag POINT_CLOUD whose payload is the
joint projection of the concatenated source and target feature matrices
split back into a source-row-count block and a target-row-count block, and
the graph-construction built-in returns tag GRAPH whose payload is the
constructed graph structure. -/
theorem builtin_callbacks_spec (nm : Numerics) (ds : DataStore) (term : Term)
    (p q : Partition) (hpca : ∀ m, (nm.pca m).length = m.length) :
    runCallback nm ds term p q Callback.localPCA
      = Except.ok ⟨Payload.pair
          ((nm.pca (Partition.featX ds p ++ Partition.featX ds q)).take
            (Partition.featX ds p).length)
          ((nm.pca (Partition.featX ds p ++ Partition.featX ds q)).drop
            (Partition.featX ds p).length),
          Tag.pointCloud, none⟩
    ∧ ((nm.pca (Partition.featX ds p ++ Partition.featX ds q)).take
        (Partition.featX ds p).length).length = (Partition.featX ds p).length
    ∧ ((nm.pca (Partition.featX ds p ++ Partition.featX ds q)).drop
        (Partition.featX ds p).length).length = (Partition.featX ds q).length
    ∧ runCallback nm ds term p q Callback.graphConstruction
      = Except.ok ⟨Payload.single
          (nm.buildGraph (Partition.featX ds p ++ Partition.featX ds q)),
          Tag.graph, none⟩ := by
  refine ⟨rfl, ?_, ?_, rfl⟩
  · rw [List.length_take, hpca, List.length_append]
    omega
  · rw [List.length_drop, hpca, List.length_append]
    omega

/-- Witness for C6 at concrete data: with the identity projection, local-pca
splits the four joint feature rows back into the two source rows and the two
target rows as a point cloud, and graph-construction returns the graph over
the joint features. -/
theorem builtin_callbacks_spec_witness :
    runCallback nmW dsW Term.xy pA pB Callback.localPCA
      = Except.ok ⟨Payload.pair [[1, 2], [3, 4]] [[5, 6], [7, 8]],
          Tag.pointCloud, none⟩
    ∧ runCallback nmW dsW Term.xy pA pB Callback.graphConstruction
      = Except.ok ⟨Payload.single [[1, 2], [3, 4], [5, 6], [7, 8]],
          Tag.graph, none⟩ := by
  have h := builtin_callbacks_spec nmW dsW Term.xy pA pB (fun m => rfl)
  exact ⟨h.1.trans rfl, h.2.2.2.trans rfl⟩

/-- C7: term resolution does not interfere across terms: two prepare calls
whose configurations agree on the quadratic source term and the
standardization flag resolve that term identically however the other terms
are configured, and within any prepare call each quadratic term is resolved
with only its own partition supplied as both source and target. -/
theorem term_noninterference_spec (nm : Numerics) (ds : DataStore)
    (c1 c2 : PrepareConfig) (hx : c1.x = c2.x)
    (hns : c1.normSpatial = c2.normSpatial)
    (inst o1 o2 : ProblemInstance)
    (h1 : prepareInstance nm ds c1 inst = Except.ok o1)
    (h2 : prepareInstance nm ds c2 inst = Except.ok o2) :
    o1.x = o2.x
    ∧ (∀ (cfg : PrepareConfig) (i out : ProblemInstance),
        prepareInstance nm ds cfg i = Except.ok out →
        (∃ rx, resolveTerm nm ds cfg.normSpatial Term.x i.src i.src i.x cfg.x
            = Except.ok rx ∧ out.x = some rx)
        ∧ ∃ ry, resolveTerm nm ds cfg.normSpatial Term.y i.tgt i.tgt i.y cfg.y
            = Except.ok ry ∧ out.y = some ry) := by
  constructor
  · obtain ⟨rxy1, rx1, ry1, _, hx1, _, ho1⟩ :=
      (prepareInstance_ok_iff nm ds c1 inst o1).mp h1
    obtain ⟨rxy2, rx2, ry2, _, hx2, _, ho2⟩ :=
      (prepareInstance_ok_iff nm ds c2 inst o2).mp h2
    rw [hx, hns] at hx1
    rw [hx1] at hx2
    have : rx1 = rx2 := (Except.ok.injEq _ _).mp hx2
    rw [ho1, ho2, this]
  · intro cfg i out hout
    obtain ⟨rxy, rx, ry, _, hxr, hyr, ho⟩ :=
      (prepareInstance_ok_iff nm ds cfg i out).mp hout
    exact ⟨⟨rx, hxr, by rw [ho]⟩, ⟨ry, hyr, by rw [ho]⟩⟩

/-- Witness second configuration for C7, differing from the fresh default
configuration only in the quadratic target term. -/
def cfgFreshY : PrepareConfig :=
  { xy := TermConfig.defaultCfg, x := TermConfig.defaultCfg
    y := TermConfig.attr ⟨AttrLoc.obsm, "feat", Tag.pointCloud⟩ none
    normSpatial := false }

/-- Witness output of preparing under the second C7 configuration. -/
def outFreshY : ProblemInstance :=
  { src := pA, tgt := pB
    xy := some ⟨Payload.pair [[1, 2], [3, 4]] [[5, 6], [7, 8]],
      Tag.pointCloud, some "sq_euclidean"⟩
    x := some ⟨Payload.single [[0, 2]], Tag.pointCloud, some "sq_euclidean"⟩
    y := some ⟨Payload.single [[3], [4]], Tag.pointCloud, none⟩
    stage := Stage.PREPARED }

/-- Witness for C7 at concrete data: two prepare runs differing only in the
quadratic target term configuration resolve the quadratic source term to the
same representation. -/
theorem term_noninterference_spec_witness :
    outFresh.x = outFreshY.x := by
  exact (term_noninterference_spec nmW dsW cfgFresh cfgFreshY rfl rfl
    instW outFresh outFreshY rfl rfl).1

/-- Length of a sub-block: one row per source-partition row. -/
theorem subBlock_length (m : Mat) (p q : Partition)
    (h : p.start + p.len ≤ m.length) :
    (subBlock m p q).length = p.len := by
  simp only [subBlock, sliceRows, List.length_map, List.length_take, List.length_drop]
  omega

/-- Width of a sub-block: one column per target-partition row, provided the
stored rows are long enough. -/
theorem subBlock_row_length (m : Mat) (p q : Partition)
    (hc : ∀ row ∈ m, q.start + q.len ≤ row.length) :
    ∀ row ∈ subBlock m p q, row.length = q.len := by
  intro row hrow
  simp only [subBlock, List.mem_map] at hrow
  obtain ⟨row0, hrow0, hmap⟩ := hrow
  have hr0 : row0 ∈ m := by
    have h1 := List.mem_of_mem_take hrow0
    exact List.mem_of_mem_drop h1
  rw [← hmap]
  simp only [List.length_take, List.length_drop]
  have := hc row0 hr0
  omega

/-- C9: an attribute selector pointing at a pairwise block matrix stored on
the full concatenated data resolves, for each pairwise problem, to only the
sub-block aligned with that problem's own partitions: the linear term gets
dimensions source-rows by target-rows and a quadratic term gets dimensions
partition by partition, never the dimensions of the full stored matrix. -/
theorem obsp_subblock_spec (ds : DataStore) (p q : Partition) (m : Mat)
    (key : String) (tag0 : Tag) (cost : Option String)
    (hm : ds.obsp.lookup key = some m)
    (hcost : costOk cost = true)
    (hrp : p.start + p.len ≤ m.length)
    (hcq : ∀ row ∈ m, q.start + q.len ≤ row.length)
    (hcp : ∀ row ∈ m, p.start + p.len ≤ row.length) :
    (attrLookup ds Term.xy p q ⟨AttrLoc.obsp, key, tag0⟩ cost
      = Except.ok ⟨Payload.single (subBlock m p q), tag0, cost⟩
      ∧ (subBlock m p q).length = p.len
      ∧ ∀ row ∈ subBlock m p q, row.length = q.len)
    ∧ (attrLookup ds Term.x p p ⟨AttrLoc.obsp, key, tag0⟩ cost
      = Except.ok ⟨Payload.single (subBlock m p p), tag0, cost⟩
      ∧ (subBlock m p p).length = p.len
      ∧ ∀ row ∈ subBlock m p p, row.length = p.len) := by
  have hszq : matIsSize (subBlock m p q) p.len q.len = true := by
    simp only [matIsSize, Bool.and_eq_true, beq_iff_eq, List.all_eq_true]
    exact ⟨subBlock_length m p q hrp, subBlock_row_length m p q hcq⟩
  have hszp : matIsSize (subBlock m p p) p.len p.len = true := by
    simp only [matIsSize, Bool.and_eq_true, beq_iff_eq, List.all_eq_true]
    exact ⟨subBlock_length m p p hrp, subBlock_row_length m p p hcp⟩
  refine ⟨⟨?_, subBlock_length m p q hrp, subBlock_row_length m p q hcq⟩,
    ⟨?_, subBlock_length m p p hrp, subBlock_row_length m p p hcp⟩⟩
  · simp [attrLookup, hcost, hm, hszq]
  · simp [attrLookup, hcost, hm, hszp]

/-- Witness for C9 at concrete data: from the four-by-four stored block
matrix, the linear term of the witness pair extracts exactly its two-by-two
cross block and the quadratic source term its two-by-two diagonal block. -/
theorem obsp_subblock_spec_witness :
    attrLookup dsW Term.xy pA pB ⟨AttrLoc.obsp, "cm", Tag.costMatrix⟩ (some "custom")
      = Except.ok ⟨Payload.single [[2, 3], [4, 5]], Tag.costMatrix, some "custom"⟩
    ∧ attrLookup dsW Term.x pA pA ⟨AttrLoc.obsp, "cm", Tag.costMatrix⟩ (some "custom")
      = Except.ok ⟨Payload.single [[0, 1], [1, 0]], Tag.costMatrix, some "custom"⟩ := by
  have h := obsp_subblock_spec dsW pA pB
    [[0, 1, 2, 3], [1, 0, 4, 5], [2, 4, 0, 6], [3, 5, 6, 0]]
    "cm" Tag.costMatrix (some "custom") rfl rfl (by decide)
    (by decide) (by decide)
  exact ⟨h.1.1.trans rfl, h.2.1.trans rfl⟩

end Moscot
